import Mathlib

/-!
# Verification of the buddymon parsing-and-encoding pipeline

Shallow embedding of `src/buddymon.go` (the variant whose `main` loops over
`processBuddyInfo`): the line parser `makeBuddyEntry`, the batch/point
assembly loop of `updateInflux`, the per-cycle driver `processBuddyInfo`,
and one iteration of `main`'s dispatch loop.

Go strings are modelled as `List Char`; Go maps (`map[string]string`,
`map[string]interface{}` holding strings) are modelled as association lists
with in-place update (`mapSet`) and first-match lookup (`mapGet`), which
matches Go map lookup/assignment semantics observationally.  Go's
`log.Fatal` (process exit) and `panic` are modelled as distinguished
outcomes of a cycle rather than as returned errors.
-/

set_option autoImplicit false

namespace Buddymon

/-- A Go string, modelled as its list of characters. -/
abbrev Str := List Char

/-- Go `unicode.IsSpace`: the Unicode White_Space property
(`\t \n \v \f \r`, space, NEL, NBSP, and the other Unicode space code
points).  `strings.Fields` splits on runs of exactly these characters. -/
def goIsSpace (c : Char) : Bool :=
  decide ((9 ≤ c.toNat ∧ c.toNat ≤ 13) ∨ c.toNat = 32 ∨ c.toNat = 0x85 ∨
    c.toNat = 0xA0 ∨ c.toNat = 0x1680 ∨
    (0x2000 ≤ c.toNat ∧ c.toNat ≤ 0x200A) ∨ c.toNat = 0x2028 ∨
    c.toNat = 0x2029 ∨ c.toNat = 0x202F ∨ c.toNat = 0x205F ∨
    c.toNat = 0x3000)

/-- Worker for `strFields`: `acc` holds the characters of the current token
in reverse order.  A whitespace character closes the current token (if any);
any other character extends it. -/
def fieldsAux : Str → Str → List Str
  | [], acc => if acc.isEmpty then [] else [acc.reverse]
  | c :: cs, acc =>
    if goIsSpace c then
      if acc.isEmpty then fieldsAux cs [] else acc.reverse :: fieldsAux cs []
    else fieldsAux cs (c :: acc)

/-- Go `strings.Fields`: split a string around runs of whitespace,
returning only the non-empty tokens. -/
def strFields (s : Str) : List Str := fieldsAux s []

/-- Source constant `assertFieldCount = 15` — requisite fields in each
buddyinfo line. -/
def assertFieldCount : Nat := 15

/-- Source constant `buddyPath = "proc_buddyinfo.txt"`. -/
def buddyPath : Str := "proc_buddyinfo.txt".data

/-- The payload of the `fmt.Errorf("found %d fields in %s (expected %d) in %v",
n, buddyPath, assertFieldCount, line)` error returned by `makeBuddyEntry`. -/
structure BuddyError where
  actual : Nat
  expected : Nat
  line : Str
  deriving DecidableEq, Repr

/-- Rendering of the `fmt.Errorf` format string of the field-count error
of `makeBuddyEntry`. -/
def renderBuddyError (e : BuddyError) : Str :=
  "found ".data ++ Nat.toDigits 10 e.actual ++ " fields in ".data ++
    buddyPath ++ " (expected ".data ++ Nat.toDigits 10 e.expected ++
    ") in ".data ++ e.line

/-- An association-list model of a Go `map[string]string`
(or `map[string]interface{}` whose values are strings). -/
abbrev StrMap := List (Str × Str)

/-- Struct `BuddyEntry`: binds a set of page entries to node number and
zone (`Pages` matches the fields argument of an InfluxDB data point). -/
structure BuddyEntry where
  pages : StrMap
  node : Str
  zone : Str
  deriving DecidableEq, Repr

/-- Go map assignment `m[k] = v`: replace the binding of `k` in place if
present, otherwise append a new binding. -/
def mapSet : StrMap → Str → Str → StrMap
  | [], k, v => [(k, v)]
  | p :: m, k, v => if p.1 = k then (k, v) :: m else p :: mapSet m k v

/-- Go map lookup `m[k]`: the value of the (unique) binding of `k`. -/
def mapGet (m : StrMap) (k : Str) : Option Str :=
  (m.find? (fun p => decide (p.1 = k))).map Prod.snd

/-- Two maps with the same contents (the same value at every key). -/
def mapEquiv (m₁ m₂ : StrMap) : Prop := ∀ k, mapGet m₁ k = mapGet m₂ k

/-- Go `fmt.Sprintf("%dp", pageOrder)`: the field label of one page order. -/
def pageName (order : Nat) : Str := Nat.toDigits 10 order ++ ['p']

/-- The field-building loop of `makeBuddyEntry`: `pageOrder` starts at 1 and
doubles for each run-count token. -/
def pagesLoop : List Str → Nat → StrMap
  | [], _ => []
  | p :: ps, order => (pageName order, p) :: pagesLoop ps (order * 2)

/-- Function `makeBuddyEntry`: split the line on whitespace, require exactly
`assertFieldCount` (15) tokens, and build the entry from token 1 (first
character = node id), token 3 (zone) and tokens 4.. (run counts).
`none` models a Go panic (an out-of-range index), which the theorems below
show never occurs; `Except.error` is the returned field-count error. -/
def makeBuddyEntry (line : Str) : Option (Except BuddyError BuddyEntry) :=
  let fields := strFields line
  let n := fields.length
  if n ≠ assertFieldCount then
    some (.error ⟨n, assertFieldCount, line⟩)
  else
    match fields.get? 1 with
    | none => none
    | some f1 =>
      match f1.head? with
      | none => none
      | some node =>
        match fields.get? 3 with
        | none => none
        | some zone =>
          some (.ok ⟨pagesLoop (fields.drop 4) 1, [node], zone⟩)

/-- The subset of `InfluxSettings` the assembly loop reads. -/
structure InfluxSettings where
  measurement : Str
  globalTags : StrMap

/-- The tag key `"node"`. -/
def nodeKey : Str := "node".data

/-- The tag key `"zone"`. -/
def zoneKey : Str := "zone".data

/-- An InfluxDB data point as built by `client.NewPoint`.  The external
client library copies the tag and field maps into the point at construction
time, so `tags` is a snapshot of the shared map at the moment of the call. -/
structure Point where
  measurement : Str
  tags : StrMap
  fields : StrMap
  timestamp : Nat
  deriving DecidableEq, Repr

/-- The per-entry loop of `updateInflux`: `tags := influx.GlobalTags`
aliases the global tag map, so `tags["node"] = ...; tags["zone"] = ...`
mutate the shared map, whose updated state is threaded into the next
iteration; each point is built from the map state at that moment and the
running timestamp `t`, which advances by one nanosecond per point.
Returns the list of points and the final state of the (mutated) global
tag map. -/
def pointsLoop (meas : Str) (gt : StrMap) (batch : List BuddyEntry) (t : Nat) :
    List Point × StrMap :=
  match batch with
  | [] => ([], gt)
  | e :: es =>
    let tags := mapSet (mapSet gt nodeKey e.node) zoneKey e.zone
    let rest := pointsLoop meas tags es (t + 1)
    (⟨meas, tags, e.pages, t⟩ :: rest.1, rest.2)

/-- Function `updateInflux`, with the external write capability abstracted as a
function argument and the HTTP-client construction (external library)
elided: assemble the points from a base timestamp `t0`, hand them to the
write capability, and also expose the points and the final global-tag-map
state for observation. -/
def updateInflux (influx : InfluxSettings) (batch : List BuddyEntry) (t0 : Nat)
    (write : List Point → Except Str Unit) :
    Except Str Unit × List Point × StrMap :=
  let r := pointsLoop influx.measurement influx.globalTags batch t0
  (write r.1, r.1, r.2)

/-- The result of `slurpLines`, abstracted: either the file's lines or a
read error. -/
inductive ReadResult where
  | ok (lines : List Str)
  | err (msg : Str)

/-- The parse loop of `processBuddyInfo`: parse each line in order,
short-circuiting on the first error; `none` propagates a panic. -/
def parseLines : List Str → Option (Except BuddyError (List BuddyEntry))
  | [] => some (.ok [])
  | l :: ls =>
    match makeBuddyEntry l with
    | none => none
    | some (.error e) => some (.error e)
    | some (.ok entry) =>
      match parseLines ls with
      | none => none
      | some (.error e) => some (.error e)
      | some (.ok es) => some (.ok (entry :: es))

/-- The observable outcome of one call to `processBuddyInfo`.  `fatal`
models `log.Fatal` on a read error (which exits the process), `panicked`
models a Go panic, `failed` a parse error returned to `main`, `writeFailed`
an error returned from `updateInflux`, and `wrote` a successful cycle
(carrying the points and the final global-tag-map state). -/
inductive CycleResult where
  | fatal (msg : Str)
  | panicked
  | failed (e : BuddyError)
  | writeFailed (msg : Str)
  | wrote (points : List Point) (gt : StrMap)
  deriving DecidableEq

/-- Function `processBuddyInfo`: read the source file (`log.Fatal` on failure —
modelled as `fatal`), parse every line into a batch (returning the first
parse error), then run `updateInflux` with the write capability. -/
def processBuddyInfo (influx : InfluxSettings) (read : ReadResult) (t0 : Nat)
    (write : List Point → Except Str Unit) : CycleResult :=
  match read with
  | .err m => .fatal m
  | .ok lines =>
    match parseLines lines with
    | none => .panicked
    | some (.error e) => .failed e
    | some (.ok batch) =>
      let r := updateInflux influx batch t0 write
      match r.1 with
      | .error m => .writeFailed m
      | .ok _ => .wrote r.2.1 r.2.2

/-- One iteration of `main`'s dispatch loop: a returned error is printed as
`ERROR: <err>` and the loop sleeps and continues (`true`); `log.Fatal` and
panics terminate the process (`false`).  Returns the logged line, if any,
and whether the loop continues to the next cycle. -/
def mainStep : CycleResult → Option Str × Bool
  | .fatal m => (some m, false)
  | .panicked => (none, false)
  | .failed e => (some ("ERROR: ".data ++ renderBuddyError e), true)
  | .writeFailed m => (some ("ERROR: ".data ++ m), true)
  | .wrote _ _ => (none, true)

/-! ## Concrete inputs used by the end-to-end theorems and witnesses -/

/-- The sample buddyinfo line from the source's documentation block. -/
def sampleLine : Str :=
  "Node 0, zone      DMA      1      1      1      0      2      1      1      0      1      1      3".data

/-- The entry the sample line parses to. -/
def sampleEntry : BuddyEntry :=
  ⟨[("1p".data, "1".data), ("2p".data, "1".data), ("4p".data, "1".data),
    ("8p".data, "0".data), ("16p".data, "2".data), ("32p".data, "1".data),
    ("64p".data, "1".data), ("128p".data, "0".data), ("256p".data, "1".data),
    ("512p".data, "1".data), ("1024p".data, "3".data)],
   "0".data, "DMA".data⟩

/-- A second sample line (zone Normal of node 1) from the same block. -/
def sampleLine2 : Str :=
  "Node 1, zone   Normal   3888  10304    405    139     50     59     38     19      4      2      9".data

/-- The entry the second sample line parses to. -/
def sampleEntry2 : BuddyEntry :=
  ⟨[("1p".data, "3888".data), ("2p".data, "10304".data), ("4p".data, "405".data),
    ("8p".data, "139".data), ("16p".data, "50".data), ("32p".data, "59".data),
    ("64p".data, "38".data), ("128p".data, "19".data), ("256p".data, "4".data),
    ("512p".data, "2".data), ("1024p".data, "9".data)],
   "1".data, "Normal".data⟩

/-- A malformed line with 2 whitespace-separated tokens. -/
def badLine : Str := "a b".data

/-- Settings with no global tags. -/
def influx0 : InfluxSettings := ⟨"buddyinfo".data, []⟩

/-- Settings whose global tags already contain a `"node"` tag and a
`"host"` tag. -/
def influx1 : InfluxSettings :=
  ⟨"buddyinfo".data, [(nodeKey, "STATIC".data), ("host".data, "h1".data)]⟩

/-- A write capability that always succeeds. -/
def wOk : List Point → Except Str Unit := fun _ => .ok ()

/-- A write capability that always fails. -/
def wErr : List Point → Except Str Unit := fun _ => .error "boom".data

/-- The message of a failed read of the source file. -/
def readErrMsg : Str :=
  "open proc_buddyinfo.txt: no such file or directory".data

deriving instance DecidableEq for Except

/-- The 11 run-count tokens of the sample line. -/
def sampleCounts : List Str :=
  ["1".data, "1".data, "1".data, "0".data, "2".data, "1".data, "1".data,
   "0".data, "1".data, "1".data, "3".data]

/-- The point assembled from the sample entry under `influx1`, whose static
tags already contain `node="STATIC"`. -/
def ptC5 : Point :=
  ⟨"buddyinfo".data,
   [(nodeKey, "0".data), ("host".data, "h1".data), (zoneKey, "DMA".data)],
   sampleEntry.pages, 0⟩

/-- A static tag map with a duplicated backing entry for key `a`. -/
def gDup : StrMap := [("a".data, "1".data), ("a".data, "2".data)]

/-- A static tag map with the same contents as `gDup`. -/
def gOne : StrMap := [("a".data, "1".data)]

/-! ## Helper lemmas -/

theorem fieldsAux_mem_ne_nil (s : Str) :
    ∀ (acc : Str), ∀ f ∈ fieldsAux s acc, f ≠ [] := by
  induction s with
  | nil =>
    intro acc f hf
    unfold fieldsAux at hf
    split at hf
    · simp at hf
    · rename_i hacc
      simp only [List.mem_singleton] at hf
      subst hf
      simp only [ne_eq, List.reverse_eq_nil_iff]
      simpa [List.isEmpty_iff] using hacc
  | cons c cs ih =>
    intro acc f hf
    unfold fieldsAux at hf
    split at hf
    · split at hf
      · exact ih [] f hf
      · rename_i hacc
        rcases List.mem_cons.mp hf with h | h
        · subst h
          simp only [ne_eq, List.reverse_eq_nil_iff]
          simpa [List.isEmpty_iff] using hacc
        · exact ih [] f h
    · exact ih (c :: acc) f hf

theorem strFields_mem_ne_nil (s : Str) : ∀ f ∈ strFields s, f ≠ [] :=
  fieldsAux_mem_ne_nil s []

theorem makeBuddyEntry_of_count_ne (line : Str)
    (h : (strFields line).length ≠ assertFieldCount) :
    makeBuddyEntry line =
      some (.error ⟨(strFields line).length, assertFieldCount, line⟩) := by
  unfold makeBuddyEntry
  simp [h]

theorem makeBuddyEntry_of_count_eq (line : Str)
    (h : (strFields line).length = assertFieldCount) :
    ∃ f1 c zone, (strFields line).get? 1 = some f1 ∧ f1.head? = some c ∧
      (strFields line).get? 3 = some zone ∧
      makeBuddyEntry line =
        some (.ok ⟨pagesLoop ((strFields line).drop 4) 1, [c], zone⟩) := by
  have h1 : ∃ f1, (strFields line).get? 1 = some f1 := by
    cases hg : (strFields line).get? 1 with
    | none =>
      have := List.get?_eq_none.mp hg
      rw [h] at this
      simp [assertFieldCount] at this
    | some f1 => exact ⟨f1, rfl⟩
  obtain ⟨f1, hf1⟩ := h1
  have hmem : f1 ∈ strFields line := List.get?_mem hf1
  have hne : f1 ≠ [] := strFields_mem_ne_nil line f1 hmem
  have hc : ∃ c, f1.head? = some c := by
    cases f1 with
    | nil => exact absurd rfl hne
    | cons c _ => exact ⟨c, rfl⟩
  obtain ⟨c, hc⟩ := hc
  have h3 : ∃ zone, (strFields line).get? 3 = some zone := by
    cases hg : (strFields line).get? 3 with
    | none =>
      have := List.get?_eq_none.mp hg
      rw [h] at this
      simp [assertFieldCount] at this
    | some zone => exact ⟨zone, rfl⟩
  obtain ⟨zone, hz⟩ := h3
  refine ⟨f1, c, zone, hf1, hc, hz, ?_⟩
  unfold makeBuddyEntry
  simp only [List.get?_eq_getElem?] at hf1 hz
  simp [h, hf1, hc, hz]

theorem makeBuddyEntry_isSome (line : Str) :
    ∃ r, makeBuddyEntry line = some r := by
  by_cases h : (strFields line).length = assertFieldCount
  · obtain ⟨f1, c, zone, _, _, _, he⟩ := makeBuddyEntry_of_count_eq line h
    exact ⟨_, he⟩
  · exact ⟨_, makeBuddyEntry_of_count_ne line h⟩

theorem pagesLoop_length (ps : List Str) : ∀ o, (pagesLoop ps o).length = ps.length := by
  induction ps with
  | nil => intro o; rfl
  | cons p ps ih => intro o; simp [pagesLoop, ih (o * 2)]

theorem pagesLoop_get? (ps : List Str) : ∀ o i,
    (pagesLoop ps o).get? i =
      (ps.get? i).map (fun p => (pageName (o * 2 ^ i), p)) := by
  induction ps with
  | nil => intro o i; simp [pagesLoop]
  | cons p ps ih =>
    intro o i
    cases i with
    | zero => simp [pagesLoop]
    | succ j =>
      have key : o * 2 * 2 ^ j = o * 2 ^ (j + 1) := by ring
      simpa [pagesLoop, key] using ih (o * 2) j

theorem pagesLoop_keys (ps : List Str) : ∀ o,
    (pagesLoop ps o).map Prod.fst =
      (List.range ps.length).map (fun i => pageName (o * 2 ^ i)) := by
  induction ps with
  | nil => intro o; simp [pagesLoop]
  | cons p ps ih =>
    intro o
    have heq : (fun i => pageName (o * 2 * 2 ^ i)) =
        (fun i => pageName (o * 2 ^ (i + 1))) := by
      funext i
      congr 1
      ring
    simp only [pagesLoop, List.map_cons, ih (o * 2), List.length_cons,
      List.range_succ_eq_map, List.map_map, heq]
    simp [Function.comp]

theorem mapGet_cons_ne {p : Str × Str} {m : StrMap} {k : Str} (h : p.1 ≠ k) :
    mapGet (p :: m) k = mapGet m k := by
  simp [mapGet, List.find?_cons_of_neg, h]

theorem mapGet_cons_self {k v : Str} {m : StrMap} :
    mapGet ((k, v) :: m) k = some v := by
  simp [mapGet, List.find?_cons_of_pos]

theorem mapGet_of_nodup (l : StrMap) : ∀ i (k v : Str), (l.map Prod.fst).Nodup →
    l.get? i = some (k, v) → mapGet l k = some v := by
  induction l with
  | nil => intro i k v _ hg; simp at hg
  | cons p m ih =>
    intro i k v hnd hg
    cases i with
    | zero =>
      simp only [List.get?_cons_zero, Option.some_inj] at hg
      subst hg
      exact mapGet_cons_self
    | succ j =>
      have hg' : m.get? j = some (k, v) := hg
      have hkmem : k ∈ m.map Prod.fst := by
        have := List.get?_mem hg'
        exact List.mem_map.mpr ⟨(k, v), this, rfl⟩
      have hne : p.1 ≠ k := by
        intro hkp
        subst hkp
        simp only [List.map_cons, List.nodup_cons] at hnd
        exact hnd.1 hkmem
      rw [mapGet_cons_ne hne]
      exact ih j k v (by simpa using hnd.of_cons) hg'

theorem mapGet_mapSet_self (m : StrMap) (k v : Str) :
    mapGet (mapSet m k v) k = some v := by
  induction m with
  | nil => exact mapGet_cons_self
  | cons p m ih =>
    by_cases h : p.1 = k
    · simp only [mapSet, if_pos h]
      exact mapGet_cons_self
    · simp only [mapSet, if_neg h]
      rw [mapGet_cons_ne h]
      exact ih

theorem mapGet_mapSet_ne (m : StrMap) (k v k' : Str) (h : k' ≠ k) :
    mapGet (mapSet m k v) k' = mapGet m k' := by
  induction m with
  | nil =>
    show mapGet [(k, v)] k' = mapGet [] k'
    rw [mapGet_cons_ne (fun hk => h hk.symm)]
  | cons p m ih =>
    by_cases hp : p.1 = k
    · simp only [mapSet, if_pos hp]
      rw [mapGet_cons_ne (fun hk => h hk.symm)]
      rw [mapGet_cons_ne (fun hk => h (hp.symm.trans hk).symm)]
    · simp only [mapSet, if_neg hp]
      by_cases hp' : p.1 = k'
      · cases p with
        | mk a b =>
          simp only at hp'
          subst hp'
          rw [mapGet_cons_self, mapGet_cons_self]
      · rw [mapGet_cons_ne hp', mapGet_cons_ne hp']
        exact ih

theorem nodeKey_ne_zoneKey : nodeKey ≠ zoneKey := by decide

theorem pointsLoop_fst_length (batch : List BuddyEntry) :
    ∀ (meas : Str) (g : StrMap) (t : Nat),
      (pointsLoop meas g batch t).1.length = batch.length := by
  induction batch with
  | nil => intro meas g t; rfl
  | cons e es ih => intro meas g t; simp [pointsLoop, ih]

theorem pointsLoop_spec (batch : List BuddyEntry) :
    ∀ (meas : Str) (g : StrMap) (t i : Nat) (pt : Point),
      (pointsLoop meas g batch t).1.get? i = some pt →
      pt.timestamp = t + i ∧ pt.measurement = meas ∧
      ∃ e, batch.get? i = some e ∧ pt.fields = e.pages ∧
        mapGet pt.tags nodeKey = some e.node ∧
        mapGet pt.tags zoneKey = some e.zone ∧
        ∀ k, k ≠ nodeKey → k ≠ zoneKey → mapGet pt.tags k = mapGet g k := by
  induction batch with
  | nil => intro meas g t i pt h; simp [pointsLoop] at h
  | cons e es ih =>
    intro meas g t i pt h
    cases i with
    | zero =>
      simp only [pointsLoop, List.get?_cons_zero, Option.some_inj] at h
      subst h
      refine ⟨by simp, rfl, e, rfl, rfl, ?_, ?_, ?_⟩
      · rw [mapGet_mapSet_ne _ _ _ _ nodeKey_ne_zoneKey, mapGet_mapSet_self]
      · rw [mapGet_mapSet_self]
      · intro k hkn hkz
        rw [mapGet_mapSet_ne _ _ _ _ hkz, mapGet_mapSet_ne _ _ _ _ hkn]
    | succ j =>
      simp only [pointsLoop, List.get?_cons_succ] at h
      obtain ⟨ht, hm, e', hb, hf, hn, hz, hother⟩ := ih meas _ (t + 1) j pt h
      refine ⟨by omega, hm, e', hb, hf, hn, hz, ?_⟩
      intro k hkn hkz
      rw [hother k hkn hkz, mapGet_mapSet_ne _ _ _ _ hkz,
        mapGet_mapSet_ne _ _ _ _ hkn]

theorem mapSet_equiv {m₁ m₂ : StrMap} (h : mapEquiv m₁ m₂) (k v : Str) :
    mapEquiv (mapSet m₁ k v) (mapSet m₂ k v) := by
  intro k'
  by_cases hk : k' = k
  · subst hk
    rw [mapGet_mapSet_self, mapGet_mapSet_self]
  · rw [mapGet_mapSet_ne _ _ _ _ hk, mapGet_mapSet_ne _ _ _ _ hk]
    exact h k'

theorem pointsLoop_equiv (batch : List BuddyEntry) :
    ∀ (meas : Str) (g₁ g₂ : StrMap) (t : Nat), mapEquiv g₁ g₂ →
      (pointsLoop meas g₁ batch t).1.length =
        (pointsLoop meas g₂ batch t).1.length ∧
      ∀ i p₁ p₂, (pointsLoop meas g₁ batch t).1.get? i = some p₁ →
        (pointsLoop meas g₂ batch t).1.get? i = some p₂ →
        p₁.measurement = p₂.measurement ∧ p₁.fields = p₂.fields ∧
        p₁.timestamp = p₂.timestamp ∧ mapEquiv p₁.tags p₂.tags := by
  induction batch with
  | nil =>
    intro meas g₁ g₂ t _
    exact ⟨rfl, by intro i p₁ p₂ h₁; simp [pointsLoop] at h₁⟩
  | cons e es ih =>
    intro meas g₁ g₂ t h
    have htags : mapEquiv (mapSet (mapSet g₁ nodeKey e.node) zoneKey e.zone)
        (mapSet (mapSet g₂ nodeKey e.node) zoneKey e.zone) :=
      mapSet_equiv (mapSet_equiv h nodeKey e.node) zoneKey e.zone
    obtain ⟨hlen, hpt⟩ := ih meas _ _ (t + 1) htags
    constructor
    · simpa [pointsLoop] using hlen
    · intro i p₁ p₂ h₁ h₂
      cases i with
      | zero =>
        simp only [pointsLoop, List.get?_cons_zero, Option.some_inj] at h₁ h₂
        subst h₁
        subst h₂
        exact ⟨rfl, rfl, rfl, htags⟩
      | succ j =>
        simp only [pointsLoop, List.get?_cons_succ] at h₁ h₂
        exact hpt j p₁ p₂ h₁ h₂

theorem parseLines_isSome (lines : List Str) :
    ∃ r, parseLines lines = some r := by
  induction lines with
  | nil => exact ⟨.ok [], rfl⟩
  | cons l ls ih =>
    obtain ⟨r, hr⟩ := makeBuddyEntry_isSome l
    obtain ⟨rs, hrs⟩ := ih
    cases r with
    | error e => exact ⟨.error e, by simp [parseLines, hr]⟩
    | ok entry =>
      cases rs with
      | error e => exact ⟨.error e, by simp [parseLines, hr, hrs]⟩
      | ok es => exact ⟨.ok (entry :: es), by simp [parseLines, hr, hrs]⟩

theorem parseLines_error_of_bad (lines : List Str) :
    ∀ line ∈ lines, (strFields line).length ≠ assertFieldCount →
      ∃ e, parseLines lines = some (.error e) := by
  induction lines with
  | nil => intro line h; simp at h
  | cons l ls ih =>
    intro line hmem hbad
    rcases List.mem_cons.mp hmem with h | h
    · subst h
      refine ⟨⟨(strFields line).length, assertFieldCount, line⟩, ?_⟩
      simp [parseLines, makeBuddyEntry_of_count_ne line hbad]
    · obtain ⟨r, hr⟩ := makeBuddyEntry_isSome l
      cases r with
      | error e => exact ⟨e, by simp [parseLines, hr]⟩
      | ok entry =>
        obtain ⟨e, he⟩ := ih line h hbad
        exact ⟨e, by simp [parseLines, hr, he]⟩

theorem processBuddyInfo_parse_error {lines : List Str} {e : BuddyError}
    (influx : InfluxSettings) (t0 : Nat) (write : List Point → Except Str Unit)
    (h : parseLines lines = some (.error e)) :
    processBuddyInfo influx (.ok lines) t0 write = .failed e := by
  simp [processBuddyInfo, h]

/-! ## Claim theorems -/

/-- C1: for every input line, parse succeeds if and only if splitting on
runs of whitespace yields exactly 15 tokens; on success the entry's page
map has 11 entries; on any other token count parse fails with a
field-count-mismatch error reporting expected 15 and the actual count, and
any cycle whose file contains such a line has the same outcome for every
write capability (the write is never invoked) and never produces a written
batch. -/
theorem C1_field_count (line : Str) :
    ((∃ entry, makeBuddyEntry line = some (.ok entry)) ↔
      (strFields line).length = 15) ∧
    (∀ entry, makeBuddyEntry line = some (.ok entry) →
      entry.pages.length = 11) ∧
    ((strFields line).length ≠ 15 →
      makeBuddyEntry line =
        some (.error ⟨(strFields line).length, 15, line⟩) ∧
      ∀ (influx : InfluxSettings) (lines : List Str) (t0 : Nat)
        (w₁ w₂ : List Point → Except Str Unit), line ∈ lines →
        processBuddyInfo influx (.ok lines) t0 w₁ =
          processBuddyInfo influx (.ok lines) t0 w₂ ∧
        ∀ pts gt, processBuddyInfo influx (.ok lines) t0 w₁ ≠ .wrote pts gt) := by
  refine ⟨⟨?_, ?_⟩, ?_, ?_⟩
  · rintro ⟨entry, he⟩
    by_contra hne
    rw [makeBuddyEntry_of_count_ne line hne] at he
    simp at he
  · intro h
    obtain ⟨f1, c, zone, _, _, _, he⟩ := makeBuddyEntry_of_count_eq line h
    exact ⟨_, he⟩
  · intro entry he
    rcases eq_or_ne (strFields line).length 15 with h | h
    · obtain ⟨f1, c, zone, _, _, _, he'⟩ := makeBuddyEntry_of_count_eq line h
      rw [he'] at he
      simp only [Option.some_inj, Except.ok.injEq] at he
      rw [← he]
      show (pagesLoop ((strFields line).drop 4) 1).length = 11
      rw [pagesLoop_length, List.length_drop, h]
    · rw [makeBuddyEntry_of_count_ne line h] at he
      simp at he
  · intro h
    refine ⟨makeBuddyEntry_of_count_ne line h, ?_⟩
    intro influx lines t0 w₁ w₂ hmem
    obtain ⟨e, he⟩ := parseLines_error_of_bad lines line hmem h
    rw [processBuddyInfo_parse_error influx t0 w₁ he,
      processBuddyInfo_parse_error influx t0 w₂ he]
    exact ⟨rfl, fun pts gt hcon => CycleResult.noConfusion hcon⟩

/-- Witness for C1: the 2-token line `"a b"` fails with actual count 2 and
expected 15, the cycle outcome is independent of the write capability, and
the cycle produces no written batch. -/
theorem C1_field_count_witness :
    makeBuddyEntry badLine = some (.error ⟨2, 15, badLine⟩) ∧
    processBuddyInfo influx0 (.ok [badLine]) 0 wOk =
      processBuddyInfo influx0 (.ok [badLine]) 0 wErr ∧
    ∀ pts gt, processBuddyInfo influx0 (.ok [badLine]) 0 wOk ≠ .wrote pts gt := by
  have h := (C1_field_count badLine).2.2 (by decide)
  have h2 := h.2 influx0 [badLine] 0 wOk wErr (by simp)
  exact ⟨by decide, h2.1, h2.2⟩

/-- C2: parsing the sample buddyinfo line yields node `"0"` (first
character of token 1, dropping the trailing comma), zone `"DMA"` (token 3
verbatim), and the 11 run counts as literal strings; encoding it yields
exactly the labelled fields of `sampleEntry.pages` and tags containing
`node="0"` and `zone="DMA"` alongside the static tags. -/
theorem C2_sample_line :
    makeBuddyEntry sampleLine = some (.ok sampleEntry) ∧
    sampleEntry.node = "0".data ∧ sampleEntry.zone = "DMA".data ∧
    (pointsLoop "buddyinfo".data [("host".data, "h1".data)] [sampleEntry] 0).1 =
      [⟨"buddyinfo".data,
        [("host".data, "h1".data), (nodeKey, "0".data), (zoneKey, "DMA".data)],
        sampleEntry.pages, 0⟩] ∧
    mapGet [("host".data, "h1".data), (nodeKey, "0".data), (zoneKey, "DMA".data)]
      nodeKey = some "0".data ∧
    mapGet [("host".data, "h1".data), (nodeKey, "0".data), (zoneKey, "DMA".data)]
      zoneKey = some "DMA".data :=
  ⟨by decide, rfl, rfl, by decide, by decide, by decide⟩

/-- C10: the parser is total: every line yields either a record or the
field-count error (never a panic), and whenever the 15-token check passes,
token 1 exists and is non-empty (whitespace splitting yields no empty
tokens), so taking its first character is in bounds. -/
theorem C10_parser_total (line : Str) :
    (∃ r, makeBuddyEntry line = some r) ∧
    (∀ r, makeBuddyEntry line = some r →
      (∃ entry, r = .ok entry) ∨
      r = .error ⟨(strFields line).length, 15, line⟩) ∧
    ((strFields line).length = 15 →
      ∃ f1, (strFields line).get? 1 = some f1 ∧ f1 ≠ []) := by
  refine ⟨makeBuddyEntry_isSome line, ?_, ?_⟩
  · intro r hr
    rcases eq_or_ne (strFields line).length 15 with h | h
    · obtain ⟨f1, c, zone, _, _, _, he⟩ := makeBuddyEntry_of_count_eq line h
      rw [he] at hr
      simp only [Option.some_inj] at hr
      exact .inl ⟨_, hr.symm⟩
    · rw [makeBuddyEntry_of_count_ne line h] at hr
      simp only [Option.some_inj] at hr
      exact .inr hr.symm
  · intro h
    obtain ⟨f1, c, zone, hf1, hc, _, _⟩ := makeBuddyEntry_of_count_eq line h
    exact ⟨f1, hf1, strFields_mem_ne_nil line f1 (List.get?_mem hf1)⟩

/-- Witness for C10: the sample line parses without panic, and its token 1
(`"0,"`) is non-empty. -/
theorem C10_parser_total_witness :
    (∃ r, makeBuddyEntry sampleLine = some r) ∧
    (∃ f1, (strFields sampleLine).get? 1 = some f1 ∧ f1 ≠ []) :=
  ⟨(C10_parser_total sampleLine).1,
   (C10_parser_total sampleLine).2.2 (by decide)⟩

/-- C3: in every assembled batch, the point at zero-based position `i`
carries timestamp `t0 + i` nanoseconds; timestamps are strictly increasing
by one nanosecond per point, no two points share a timestamp, and output
order matches input order (point `i` carries the fields of record `i`). -/
theorem C3_timestamps (influx : InfluxSettings) (batch : List BuddyEntry) (t0 : Nat) :
    ((pointsLoop influx.measurement influx.globalTags batch t0).1.length =
      batch.length) ∧
    (∀ i pt,
      (pointsLoop influx.measurement influx.globalTags batch t0).1.get? i = some pt →
      pt.timestamp = t0 + i ∧ (batch.get? i).map BuddyEntry.pages = some pt.fields) ∧
    (∀ i j pti ptj, i < j →
      (pointsLoop influx.measurement influx.globalTags batch t0).1.get? i = some pti →
      (pointsLoop influx.measurement influx.globalTags batch t0).1.get? j = some ptj →
      pti.timestamp < ptj.timestamp ∧ pti.timestamp ≠ ptj.timestamp) := by
  refine ⟨pointsLoop_fst_length batch _ _ _, ?_, ?_⟩
  · intro i pt h
    obtain ⟨ht, _, e, hb, hf, _⟩ := pointsLoop_spec batch _ _ _ i pt h
    refine ⟨ht, ?_⟩
    rw [hb]
    simp [hf]
  · intro i j pti ptj hij hi hj
    obtain ⟨hti, _⟩ := pointsLoop_spec batch _ _ _ i pti hi
    obtain ⟨htj, _⟩ := pointsLoop_spec batch _ _ _ j ptj hj
    omega

/-- Witness for C3: a two-record batch starting at base time 5 produces
points with timestamps 5 and 6, strictly increasing and distinct. -/
theorem C3_timestamps_witness :
    ∃ p₀ p₁,
      (pointsLoop influx0.measurement influx0.globalTags
        [sampleEntry, sampleEntry2] 5).1.get? 0 = some p₀ ∧
      (pointsLoop influx0.measurement influx0.globalTags
        [sampleEntry, sampleEntry2] 5).1.get? 1 = some p₁ ∧
      p₀.timestamp = 5 + 0 ∧ p₁.timestamp = 5 + 1 ∧
      p₀.timestamp < p₁.timestamp ∧ p₀.timestamp ≠ p₁.timestamp := by
  have h := C3_timestamps influx0 [sampleEntry, sampleEntry2] 5
  have hp₀ : (pointsLoop influx0.measurement influx0.globalTags
      [sampleEntry, sampleEntry2] 5).1.get? 0 =
      some ⟨"buddyinfo".data, [(nodeKey, "0".data), (zoneKey, "DMA".data)],
        sampleEntry.pages, 5⟩ := by decide
  have hp₁ : (pointsLoop influx0.measurement influx0.globalTags
      [sampleEntry, sampleEntry2] 5).1.get? 1 =
      some ⟨"buddyinfo".data, [(nodeKey, "1".data), (zoneKey, "Normal".data)],
        sampleEntry2.pages, 6⟩ := by decide
  obtain ⟨ht₀, _⟩ := h.2.1 0 _ hp₀
  obtain ⟨ht₁, _⟩ := h.2.1 1 _ hp₁
  obtain ⟨hlt, hne⟩ := h.2.2 0 1 _ _ (by omega) hp₀ hp₁
  exact ⟨_, _, hp₀, hp₁, ht₀, ht₁, hlt, hne⟩

/-- C4: for every 11-element run-count list, the field map has exactly the
keys `1p,2p,4p,…,1024p` in that order (label `(2^i)p` for `i` in 0..10),
and the value stored under label `(2^i)p` is run count `i`. -/
theorem C4_field_labels (ps : List Str) (h : ps.length = 11) :
    (pagesLoop ps 1).map Prod.fst =
      ["1p".data, "2p".data, "4p".data, "8p".data, "16p".data, "32p".data,
       "64p".data, "128p".data, "256p".data, "512p".data, "1024p".data] ∧
    ∀ i, i < 11 → mapGet (pagesLoop ps 1) (pageName (2 ^ i)) = ps.get? i := by
  have hkeys : (pagesLoop ps 1).map Prod.fst =
      (List.range 11).map (fun i => pageName (1 * 2 ^ i)) := by
    rw [pagesLoop_keys ps 1, h]
  have hlit : (List.range 11).map (fun i => pageName (1 * 2 ^ i)) =
      ["1p".data, "2p".data, "4p".data, "8p".data, "16p".data, "32p".data,
       "64p".data, "128p".data, "256p".data, "512p".data, "1024p".data] := by
    decide
  refine ⟨hkeys.trans hlit, ?_⟩
  intro i hi
  have hnodup : ((pagesLoop ps 1).map Prod.fst).Nodup := by
    rw [hkeys.trans hlit]
    decide
  have hilt : i < ps.length := by omega
  have hget : ps.get? i = some (ps.get ⟨i, hilt⟩) := List.get?_eq_get hilt
  have hpget : (pagesLoop ps 1).get? i =
      some (pageName (2 ^ i), ps.get ⟨i, hilt⟩) := by
    rw [pagesLoop_get? ps 1 i, hget]
    simp
  rw [mapGet_of_nodup _ i _ _ hnodup hpget, hget]

/-- Witness for C4: on the sample run counts, the labels are exactly
`1p..1024p` and the value under `16p` (label `(2^4)p`) is `"2"`. -/
theorem C4_field_labels_witness :
    (pagesLoop sampleCounts 1).map Prod.fst =
      ["1p".data, "2p".data, "4p".data, "8p".data, "16p".data, "32p".data,
       "64p".data, "128p".data, "256p".data, "512p".data, "1024p".data] ∧
    mapGet (pagesLoop sampleCounts 1) (pageName (2 ^ 4)) = some "2".data := by
  have h := C4_field_labels sampleCounts (by decide)
  refine ⟨h.1, ?_⟩
  rw [h.2 4 (by omega)]
  decide

/-- C5: for every record and static tag map — including maps already
holding a `"node"` or `"zone"` key — each assembled point's tags map the
`"node"` and `"zone"` keys to the record's values (record-derived values
overwrite same-named static tags), and every other static tag is looked up
unchanged. -/
theorem C5_tag_precedence (influx : InfluxSettings) (batch : List BuddyEntry)
    (t0 i : Nat) (pt : Point)
    (h : (pointsLoop influx.measurement influx.globalTags batch t0).1.get? i =
      some pt) :
    ∃ e, batch.get? i = some e ∧
      mapGet pt.tags nodeKey = some e.node ∧
      mapGet pt.tags zoneKey = some e.zone ∧
      ∀ k, k ≠ nodeKey → k ≠ zoneKey →
        mapGet pt.tags k = mapGet influx.globalTags k := by
  obtain ⟨_, _, e, hb, _, hn, hz, hother⟩ := pointsLoop_spec batch _ _ _ i pt h
  exact ⟨e, hb, hn, hz, hother⟩

/-- Witness for C5: with a static `node="STATIC"` tag, the record's
`node="0"` wins and the unrelated `host` tag is unchanged. -/
theorem C5_tag_precedence_witness :
    (∃ e, [sampleEntry].get? 0 = some e ∧
      mapGet ptC5.tags nodeKey = some e.node ∧
      mapGet ptC5.tags zoneKey = some e.zone ∧
      ∀ k, k ≠ nodeKey → k ≠ zoneKey →
        mapGet ptC5.tags k = mapGet influx1.globalTags k) ∧
    mapGet ptC5.tags nodeKey = some "0".data ∧
    mapGet ptC5.tags ("host".data) = some "h1".data := by
  have h := C5_tag_precedence influx1 [sampleEntry] 0 0 ptC5 (by decide)
  exact ⟨h, by decide, by decide⟩

/-- C6 (refuted by the code): the loop of `updateInflux` aliases the
global/static tag map (`tags := influx.GlobalTags`) and mutates it in
place, so after assembling a batch the static map passed in has gained
`node` and `zone` entries — here the empty static map ends as
`[(node,"0"), (zone,"DMA")]` — contradicting "the staticTags map passed in
is unchanged". -/
theorem C6_global_tags_mutated :
    (pointsLoop "buddyinfo".data [] [sampleEntry] 0).2 =
      [(nodeKey, "0".data), (zoneKey, "DMA".data)] ∧
    mapGet (pointsLoop "buddyinfo".data [] [sampleEntry] 0).2 nodeKey =
      some "0".data ∧
    mapGet ([] : StrMap) nodeKey = none :=
  ⟨by decide, by decide, rfl⟩

/-- C7 (refuted by the code): on a source-file read failure,
`processBuddyInfo` calls `log.Fatal`, so the cycle outcome is `fatal` and
the dispatch loop does not continue to the next cycle — the failure is
process-fatal, not recoverable per cycle. -/
theorem C7_read_failure_fatal (influx : InfluxSettings) (t0 : Nat)
    (write : List Point → Except Str Unit) :
    processBuddyInfo influx (.err readErrMsg) t0 write = .fatal readErrMsg ∧
    mainStep (.fatal readErrMsg) = (some readErrMsg, false) :=
  ⟨rfl, rfl⟩

/-- C8: in every cycle whose outcome is a parse (validation) error or a
write error, the dispatch loop logs `ERROR: <err>` and continues to the
next cycle; neither failure terminates the process. -/
theorem C8_cycle_errors_continue (influx : InfluxSettings) (lines : List Str)
    (t0 : Nat) (write : List Point → Except Str Unit) :
    (∀ e, processBuddyInfo influx (.ok lines) t0 write = .failed e →
      mainStep (processBuddyInfo influx (.ok lines) t0 write) =
        (some ("ERROR: ".data ++ renderBuddyError e), true)) ∧
    (∀ m, processBuddyInfo influx (.ok lines) t0 write = .writeFailed m →
      mainStep (processBuddyInfo influx (.ok lines) t0 write) =
        (some ("ERROR: ".data ++ m), true)) := by
  constructor <;> intro x hx <;> rw [hx] <;> rfl

/-- Witness for C8: a cycle over the 2-token line logs its validation
error and continues; a cycle whose write fails logs the write error and
continues. -/
theorem C8_cycle_errors_continue_witness :
    mainStep (processBuddyInfo influx0 (.ok [badLine]) 0 wOk) =
      (some ("ERROR: ".data ++ renderBuddyError ⟨2, 15, badLine⟩), true) ∧
    mainStep (processBuddyInfo influx0 (.ok [sampleLine]) 0 wErr) =
      (some ("ERROR: ".data ++ "boom".data), true) :=
  ⟨(C8_cycle_errors_continue influx0 [badLine] 0 wOk).1
      ⟨2, 15, badLine⟩ (by decide),
   (C8_cycle_errors_continue influx0 [sampleLine] 0 wErr).2
      "boom".data (by decide)⟩

/-- C9: encoding is deterministic: assembling the same batch against two
static tag maps with the same contents yields, position by position, points
with identical measurement, identical field maps, identical timestamps and
tag maps with the same contents. -/
theorem C9_deterministic (meas : Str) (batch : List BuddyEntry) (t : Nat)
    (g₁ g₂ : StrMap) (h : mapEquiv g₁ g₂) :
    (pointsLoop meas g₁ batch t).1.length =
      (pointsLoop meas g₂ batch t).1.length ∧
    ∀ i p₁ p₂, (pointsLoop meas g₁ batch t).1.get? i = some p₁ →
      (pointsLoop meas g₂ batch t).1.get? i = some p₂ →
      p₁.measurement = p₂.measurement ∧ p₁.fields = p₂.fields ∧
      p₁.timestamp = p₂.timestamp ∧ mapEquiv p₁.tags p₂.tags :=
  pointsLoop_equiv batch meas g₁ g₂ t h

/-- Witness for C9: two representations of the same static tag contents
yield points with equal fields, timestamps and tag lookups. -/
theorem C9_deterministic_witness :
    (pointsLoop "buddyinfo".data gDup [sampleEntry] 0).1.length =
      (pointsLoop "buddyinfo".data gOne [sampleEntry] 0).1.length ∧
    ∃ p₁ p₂,
      (pointsLoop "buddyinfo".data gDup [sampleEntry] 0).1.get? 0 = some p₁ ∧
      (pointsLoop "buddyinfo".data gOne [sampleEntry] 0).1.get? 0 = some p₂ ∧
      p₁.fields = p₂.fields ∧ p₁.timestamp = p₂.timestamp ∧
      mapGet p₁.tags nodeKey = mapGet p₂.tags nodeKey ∧
      mapGet p₁.tags ("a".data) = mapGet p₂.tags ("a".data) := by
  have hequiv : mapEquiv gDup gOne := by
    intro k
    by_cases hk : ("a".data : Str) = k
    · subst hk
      rfl
    · show mapGet (("a".data, "1".data) :: [("a".data, "2".data)]) k = _
      rw [mapGet_cons_ne hk, mapGet_cons_ne hk]
      show _ = mapGet (("a".data, "1".data) :: []) k
      rw [mapGet_cons_ne hk]
  have h := C9_deterministic "buddyinfo".data [sampleEntry] 0 gDup gOne hequiv
  have hp₁ : (pointsLoop "buddyinfo".data gDup [sampleEntry] 0).1.get? 0 =
      some ⟨"buddyinfo".data,
        [("a".data, "1".data), ("a".data, "2".data), (nodeKey, "0".data),
         (zoneKey, "DMA".data)], sampleEntry.pages, 0⟩ := by decide
  have hp₂ : (pointsLoop "buddyinfo".data gOne [sampleEntry] 0).1.get? 0 =
      some ⟨"buddyinfo".data,
        [("a".data, "1".data), (nodeKey, "0".data), (zoneKey, "DMA".data)],
        sampleEntry.pages, 0⟩ := by decide
  obtain ⟨_, hf, ht, htags⟩ := h.2 0 _ _ hp₁ hp₂
  exact ⟨h.1, _, _, hp₁, hp₂, hf, ht, htags nodeKey, htags ("a".data)⟩

end Buddymon
